import Mathlib

/-!
Verification of the rounding and mean modules of a small Rust math
library (src/round.rs and src/mean.rs).

Modelling conventions.

An IEEE-754 double is embedded as the type `F`: NaN, the two infinities,
and a finite value carried as an exact rational.  Floating-point
arithmetic on finite values is modelled as exact rational arithmetic;
this is the standard idealization and is exact on the inputs used by the
concrete witnesses below.  The source guards every rounding entry point
so that non-finite values never reach the integer conversions, and the
non-finite propagation of the float operations is encoded directly in
each operation.

Rust specifics kept by the embedding:
- `x / 1000` on i64 is truncated division, embedded as `Int.tdiv`;
- the `as i64` cast of a float truncates toward zero and saturates at
  the i64 range bounds (defined Rust behavior since 1.45), embedded as
  `castI64`;
- the `as u8` cast of an in-range integer is reduction mod 256;
- `rand::random::<bool>()` is embedded as an explicit `rnd : Bool`
  argument threaded to every function whose call graph can reach the
  draw; the draw is consulted only in the `digit == 5` arm of
  `to_nearest`, exactly as in the source;
- `10i64.pow(scale)` overflows i64 for `scale ≥ 19`; the main
  definitions use the exact value `10 ^ scale` (the behavior under the
  documented precondition), and the `Option`-valued `*P` variants model
  the checked-arithmetic panic of the overflow explicitly.
-/

/-- Embedding of an IEEE-754 double: NaN, the two infinities, or a
finite value carried as an exact rational. -/
inductive F where
  | nan : F
  | inf : F
  | ninf : F
  | fin : ℚ → F
deriving DecidableEq

namespace F

/-- Embedding of the Rust comparison `value < 0.` on a double: false on
NaN and on positive infinity, true on negative infinity. -/
def isNeg : F → Bool
  | .fin q => decide (q < 0)
  | .ninf => true
  | _ => false

/-- IEEE-754 addition (signed zero not distinguished): NaN propagates,
opposite infinities give NaN, finite addition is exact. -/
def add : F → F → F
  | .nan, _ => .nan
  | _, .nan => .nan
  | .inf, .ninf => .nan
  | .ninf, .inf => .nan
  | .inf, _ => .inf
  | _, .inf => .inf
  | .ninf, _ => .ninf
  | _, .ninf => .ninf
  | .fin a, .fin b => .fin (a + b)

/-- IEEE-754 multiplication (signed zero not distinguished): NaN
propagates, infinity times zero is NaN, signs multiply, finite
multiplication is exact. -/
def mul : F → F → F
  | .nan, _ => .nan
  | _, .nan => .nan
  | .inf, .inf => .inf
  | .inf, .ninf => .ninf
  | .ninf, .inf => .ninf
  | .ninf, .ninf => .inf
  | .inf, .fin b => if b = 0 then .nan else if b < 0 then .ninf else .inf
  | .fin a, .inf => if a = 0 then .nan else if a < 0 then .ninf else .inf
  | .ninf, .fin b => if b = 0 then .nan else if b < 0 then .inf else .ninf
  | .fin a, .ninf => if a = 0 then .nan else if a < 0 then .inf else .ninf
  | .fin a, .fin b => .fin (a * b)

/-- IEEE-754 division (signed zero not distinguished): NaN propagates,
infinity over infinity is NaN, zero over zero is NaN, a nonzero finite
value over zero is a signed infinity, a finite value over infinity is
zero, finite division is exact. -/
def div : F → F → F
  | .nan, _ => .nan
  | _, .nan => .nan
  | .inf, .inf => .nan
  | .inf, .ninf => .nan
  | .ninf, .inf => .nan
  | .ninf, .ninf => .nan
  | .inf, .fin b => if b < 0 then .ninf else .inf
  | .ninf, .fin b => if b < 0 then .inf else .ninf
  | .fin _, .inf => .fin 0
  | .fin _, .ninf => .fin 0
  | .fin a, .fin b =>
      if b = 0 then
        if a = 0 then .nan else if a < 0 then .ninf else .inf
      else .fin (a / b)

end F

namespace Round

/-- Largest i64 value, the saturation bound of a float-to-i64 cast. -/
def i64max : ℤ := 2 ^ 63 - 1

/-- Smallest i64 value, the saturation bound of a float-to-i64 cast. -/
def i64min : ℤ := -(2 ^ 63)

/-- Truncation of a rational toward zero, the rounding used by a Rust
float-to-integer `as` cast. -/
def truncQ (q : ℚ) : ℤ := if 0 ≤ q then ⌊q⌋ else ⌈q⌉

/-- Embedding of the Rust cast `as i64` on a finite float: truncate
toward zero and saturate at the i64 range bounds. -/
def castI64 (q : ℚ) : ℤ := max i64min (min i64max (truncQ q))

/-- Embedding of `round::ceil` from src/round.rs: multiply by
`10^scale`, take the float ceiling, divide back.  The float ceiling and
division propagate NaN and the infinities unchanged, which the `F`
match encodes; on a finite value the arithmetic is exact rational
arithmetic.  The exact multiplier `10 ^ scale` is the value of
`10i64.pow(scale) as f64` only under the documented precondition that
`10^scale` fits an i64 (scale at most 18); the panic-aware `ceilP`
below models the multiplier computation itself, and the all-scale
theorems below go through `ceilP`/`floorP`. -/
def ceil (value : F) (scale : ℕ) : F :=
  match value with
  | .fin q => .fin (((⌈q * 10 ^ scale⌉ : ℤ) : ℚ) / 10 ^ scale)
  | v => v

/-- Embedding of `round::floor` from src/round.rs, mirror of `ceil`
with the float floor, under the same scale-at-most-18 precondition on
the multiplier; `floorP` below models the multiplier computation. -/
def floor (value : F) (scale : ℕ) : F :=
  match value with
  | .fin q => .fin (((⌊q * 10 ^ scale⌋ : ℤ) : ℚ) / 10 ^ scale)
  | v => v

/-- Embedding of the private `round` helper of src/round.rs: dispatch
on the chosen direction to `ceil` or `floor`. -/
def round (value : F) (scale : ℕ) (up : Bool) : F :=
  match up with
  | true => ceil value scale
  | false => floor value scale

/-- Embedding of the private `significant_digits` of src/round.rs.  A
NaN or infinite value returns `(0, 0)` before any integer conversion.
Otherwise `x` is the float product `value * 10^(scale+2)` cast to i64
(truncating, saturating), `y` is the last three digits of `x` with the
sign stripped, divided by ten and cast to u8, and the result is the
pair `(y / 10, y % 10)` of the ones digit and the decisive digit. -/
def significant_digits (value : F) (scale : ℕ) : ℕ × ℕ :=
  match value with
  | .fin q =>
      let x : ℤ := castI64 (q * 10 ^ (scale + 2))
      let y : ℕ := ((x - Int.tdiv x 1000 * 1000).natAbs / 10) % 256
      (y / 10, y % 10)
  | _ => (0, 0)

/-- Embedding of the private `to_nearest` of src/round.rs: on an exact
tie the direction is the random draw `rnd`, otherwise it is the sign of
the value xored with whether the decisive digit exceeds five. -/
def to_nearest (value : F) (scale : ℕ) (digit : ℕ) (rnd : Bool) : F :=
  let up :=
    match digit == 5 with
    | true => rnd
    | false => Bool.xor value.isNeg (decide (5 < digit))
  round value scale up

/-- Embedding of the private `even_or_odd` of src/round.rs: on an exact
tie the direction is `(value < 0) ^ even ^ (onesDigit % 2 == 0)`,
otherwise `to_nearest` decides. -/
def even_or_odd (value : F) (scale : ℕ) (even : Bool) (rnd : Bool) : F :=
  let digits := significant_digits value scale
  match digits.2 == 5 with
  | true =>
      round value scale
        (Bool.xor (Bool.xor value.isNeg even) (decide (digits.1 % 2 = 0)))
  | false => to_nearest value scale digits.2 rnd

/-- Embedding of the private `towards_zero` of src/round.rs: on an
exact tie the direction is `(value < 0) ^ !towards`, otherwise
`to_nearest` decides. -/
def towards_zero (value : F) (scale : ℕ) (towards : Bool) (rnd : Bool) : F :=
  let digits := significant_digits value scale
  match digits.2 == 5 with
  | true => round value scale (Bool.xor value.isNeg (! towards))
  | false => to_nearest value scale digits.2 rnd

/-- Embedding of the private `up_or_down` of src/round.rs: on an exact
tie the direction is the fixed flag `up`, otherwise `to_nearest`
decides. -/
def up_or_down (value : F) (scale : ℕ) (up : Bool) (rnd : Bool) : F :=
  let digits := significant_digits value scale
  match digits.2 == 5 with
  | true => round value scale up
  | false => to_nearest value scale digits.2 rnd

/-- Embedding of the public `round::half_away_from_zero`. -/
def half_away_from_zero (value : F) (scale : ℕ) (rnd : Bool) : F :=
  towards_zero value scale false rnd

/-- Embedding of the public `round::half_down`. -/
def half_down (value : F) (scale : ℕ) (rnd : Bool) : F :=
  up_or_down value scale false rnd

/-- Embedding of the public `round::half_to_even`. -/
def half_to_even (value : F) (scale : ℕ) (rnd : Bool) : F :=
  even_or_odd value scale true rnd

/-- Embedding of the public `round::half_to_odd`. -/
def half_to_odd (value : F) (scale : ℕ) (rnd : Bool) : F :=
  even_or_odd value scale false rnd

/-- Embedding of the public `round::half_towards_zero`. -/
def half_towards_zero (value : F) (scale : ℕ) (rnd : Bool) : F :=
  towards_zero value scale true rnd

/-- Embedding of the public `round::half_up`. -/
def half_up (value : F) (scale : ℕ) (rnd : Bool) : F :=
  up_or_down value scale true rnd

/-- Embedding of the public `round::stochastic`: extract the digit pair
and hand the decisive digit to `to_nearest`, whose tie arm consumes the
random draw. -/
def stochastic (value : F) (scale : ℕ) (rnd : Bool) : F :=
  let digits := significant_digits value scale
  to_nearest value scale digits.2 rnd

/-- Statement-side definition following the words of the spec for the
digit extractor: `x = trunc(value * 10^(scale+2))` with no range clamp,
`y = |x - trunc(x/1000)*1000|`, result `((y/10) div 10, (y/10) mod 10)`,
and `(0, 0)` for NaN or infinite input.  It is compared against the
embedding `significant_digits`, which saturates `x` at the i64 bounds. -/
def significant_digits_spec (value : F) (scale : ℕ) : ℕ × ℕ :=
  match value with
  | .fin q =>
      let x : ℤ := truncQ (q * 10 ^ (scale + 2))
      let y : ℕ := (x - Int.tdiv x 1000 * 1000).natAbs
      ((y / 10) / 10, (y / 10) % 10)
  | _ => (0, 0)

/-- Embedding of `10i64.pow(scale)` under checked (debug) arithmetic:
the power of ten when it fits an i64, `none` for the overflow panic. -/
def pow10i64 (n : ℕ) : Option ℤ :=
  if (10 : ℤ) ^ n ≤ i64max then some ((10 : ℤ) ^ n) else none

/-- Panic-aware variant of `ceil`: `none` exactly when the multiplier
computation `10i64.pow(scale)` overflows. -/
def ceilP (value : F) (scale : ℕ) : Option F :=
  (pow10i64 scale).map fun (m : ℤ) =>
    match value with
    | .fin q => .fin (((⌈q * (m : ℚ)⌉ : ℤ) : ℚ) / (m : ℚ))
    | v => v

/-- Panic-aware variant of `floor`: `none` exactly when the multiplier
computation `10i64.pow(scale)` overflows. -/
def floorP (value : F) (scale : ℕ) : Option F :=
  (pow10i64 scale).map fun (m : ℤ) =>
    match value with
    | .fin q => .fin (((⌊q * (m : ℚ)⌋ : ℤ) : ℚ) / (m : ℚ))
    | v => v

/-- Panic-aware variant of the private `round` helper. -/
def roundP (value : F) (scale : ℕ) (up : Bool) : Option F :=
  match up with
  | true => ceilP value scale
  | false => floorP value scale

/-- Panic-aware variant of `to_nearest`.  The digit extraction itself
uses only float arithmetic and a saturating cast, so it cannot panic;
the panic point is inside the boundary rounders. -/
def to_nearestP (value : F) (scale : ℕ) (digit : ℕ) (rnd : Bool) : Option F :=
  let up :=
    match digit == 5 with
    | true => rnd
    | false => Bool.xor value.isNeg (decide (5 < digit))
  roundP value scale up

/-- Panic-aware variant of `even_or_odd`. -/
def even_or_oddP (value : F) (scale : ℕ) (even : Bool) (rnd : Bool) : Option F :=
  let digits := significant_digits value scale
  match digits.2 == 5 with
  | true =>
      roundP value scale
        (Bool.xor (Bool.xor value.isNeg even) (decide (digits.1 % 2 = 0)))
  | false => to_nearestP value scale digits.2 rnd

/-- Panic-aware variant of `towards_zero`. -/
def towards_zeroP (value : F) (scale : ℕ) (towards : Bool) (rnd : Bool) : Option F :=
  let digits := significant_digits value scale
  match digits.2 == 5 with
  | true => roundP value scale (Bool.xor value.isNeg (! towards))
  | false => to_nearestP value scale digits.2 rnd

/-- Panic-aware variant of `up_or_down`. -/
def up_or_downP (value : F) (scale : ℕ) (up : Bool) (rnd : Bool) : Option F :=
  let digits := significant_digits value scale
  match digits.2 == 5 with
  | true => roundP value scale up
  | false => to_nearestP value scale digits.2 rnd

/-- Panic-aware variant of `half_away_from_zero`. -/
def half_away_from_zeroP (value : F) (scale : ℕ) (rnd : Bool) : Option F :=
  towards_zeroP value scale false rnd

/-- Panic-aware variant of `half_down`. -/
def half_downP (value : F) (scale : ℕ) (rnd : Bool) : Option F :=
  up_or_downP value scale false rnd

/-- Panic-aware variant of `half_to_even`. -/
def half_to_evenP (value : F) (scale : ℕ) (rnd : Bool) : Option F :=
  even_or_oddP value scale true rnd

/-- Panic-aware variant of `half_to_odd`. -/
def half_to_oddP (value : F) (scale : ℕ) (rnd : Bool) : Option F :=
  even_or_oddP value scale false rnd

/-- Panic-aware variant of `half_towards_zero`. -/
def half_towards_zeroP (value : F) (scale : ℕ) (rnd : Bool) : Option F :=
  towards_zeroP value scale true rnd

/-- Panic-aware variant of `half_up`. -/
def half_upP (value : F) (scale : ℕ) (rnd : Bool) : Option F :=
  up_or_downP value scale true rnd

/-- Panic-aware variant of `stochastic`. -/
def stochasticP (value : F) (scale : ℕ) (rnd : Bool) : Option F :=
  let digits := significant_digits value scale
  to_nearestP value scale digits.2 rnd

end Round

namespace Mean

/-- Embedding of `mean::arithmetic` from src/mean.rs: fold the slice
with float addition starting from zero and divide by the length. -/
def arithmetic (slice : List F) : F :=
  F.div (slice.foldl F.add (F.fin 0)) (F.fin (slice.length : ℚ))

/-- Embedding of `mean::geometric` from src/mean.rs: fold the slice
with float multiplication starting from one; a negative product gives
NaN, otherwise the product is raised to `1 / length` with the float
`powf`, which is passed as an explicit parameter because the library
call is external to the sources. -/
def geometric (powf : F → F → F) (slice : List F) : F :=
  let product := slice.foldl F.mul (F.fin 1)
  match product.isNeg with
  | true => F.nan
  | false => powf product (F.div (F.fin 1) (F.fin (slice.length : ℚ)))

/-- Embedding of `mean::harmonic` from src/mean.rs: divide the length
by the fold of the reciprocals starting from zero. -/
def harmonic (slice : List F) : F :=
  F.div (F.fin (slice.length : ℚ))
    (slice.foldl (fun a b => F.add a (F.div (F.fin 1) b)) (F.fin 0))

/-- Concrete instance of the external `powf` realizing the IEEE-754
special case `pow(1, y) = 1`, the only point of `powf` consulted by
`geometric` on the empty slice. -/
def powfOne : F → F → F := fun _ _ => F.fin 1

end Mean

theorem round_eq_ite (v : F) (s : ℕ) (u : Bool) :
    Round.round v s u = if u then Round.ceil v s else Round.floor v s := by
  cases u <;> rfl

theorem to_nearest_of_ne (v : F) (s : ℕ) (d : ℕ) (r : Bool) (h : d ≠ 5) :
    Round.to_nearest v s d r =
      Round.round v s (Bool.xor v.isNeg (decide (5 < d))) := by
  simp only [Round.to_nearest]
  rw [show (d == 5) = false by simpa using h]

theorem to_nearest_rnd (v : F) (s : ℕ) (d : ℕ) (r r' : Bool) (h : (d == 5) = false) :
    Round.to_nearest v s d r = Round.to_nearest v s d r' := by
  simp only [Round.to_nearest]
  rw [h]

theorem up_or_down_rnd (v : F) (s : ℕ) (u : Bool) (r r' : Bool) :
    Round.up_or_down v s u r = Round.up_or_down v s u r' := by
  simp only [Round.up_or_down]
  cases h : (Round.significant_digits v s).2 == 5
  · exact to_nearest_rnd v s _ r r' h
  · rfl

theorem towards_zero_rnd (v : F) (s : ℕ) (t : Bool) (r r' : Bool) :
    Round.towards_zero v s t r = Round.towards_zero v s t r' := by
  simp only [Round.towards_zero]
  cases h : (Round.significant_digits v s).2 == 5
  · exact to_nearest_rnd v s _ r r' h
  · rfl

theorem even_or_odd_rnd (v : F) (s : ℕ) (e : Bool) (r r' : Bool) :
    Round.even_or_odd v s e r = Round.even_or_odd v s e r' := by
  simp only [Round.even_or_odd]
  cases h : (Round.significant_digits v s).2 == 5
  · exact to_nearest_rnd v s _ r r' h
  · rfl

/-- C10: the six half_* rounding functions are deterministic: the
random draw threaded to them is never consulted, because their
dispatchers hand `to_nearest` only a decisive digit different from
five, and the draw is taken only in the five arm (`ceil` and `floor`
take no random input at all in the embedding). -/
theorem C10_deterministic : ∀ (v : F) (s : ℕ) (r r' : Bool),
    Round.half_up v s r = Round.half_up v s r' ∧
    Round.half_down v s r = Round.half_down v s r' ∧
    Round.half_towards_zero v s r = Round.half_towards_zero v s r' ∧
    Round.half_away_from_zero v s r = Round.half_away_from_zero v s r' ∧
    Round.half_to_even v s r = Round.half_to_even v s r' ∧
    Round.half_to_odd v s r = Round.half_to_odd v s r' := by
  intro v s r r'
  exact ⟨up_or_down_rnd v s true r r', up_or_down_rnd v s false r r',
    towards_zero_rnd v s true r r', towards_zero_rnd v s false r r',
    even_or_odd_rnd v s true r r', even_or_odd_rnd v s false r r'⟩

/-- C8: on an exact tie (decisive digit five) `half_up` applies the
public `ceil` and `half_down` applies the public `floor`, for every
finite value of either sign. -/
theorem C8_half_up_down_tie : ∀ (q : ℚ) (s : ℕ) (r : Bool),
    (Round.significant_digits (F.fin q) s).2 = 5 →
    Round.half_up (F.fin q) s r = Round.ceil (F.fin q) s ∧
    Round.half_down (F.fin q) s r = Round.floor (F.fin q) s := by
  intro q s r h
  constructor
  · simp only [Round.half_up, Round.up_or_down]
    rw [show ((Round.significant_digits (F.fin q) s).2 == 5) = true by simpa using h]
    rfl
  · simp only [Round.half_down, Round.up_or_down]
    rw [show ((Round.significant_digits (F.fin q) s).2 == 5) = true by simpa using h]
    rfl

theorem truncQ_intCast (n : ℤ) : Round.truncQ ((n : ℚ)) = n := by
  unfold Round.truncQ
  split <;> simp

theorem significant_digits_eval (q : ℚ) (s : ℕ) (n : ℤ)
    (hn : Round.truncQ (q * 10 ^ (s + 2)) = n)
    (h₁ : Round.i64min ≤ n) (h₂ : n ≤ Round.i64max) :
    Round.significant_digits (F.fin q) s =
      (((n - Int.tdiv n 1000 * 1000).natAbs / 10) % 256 / 10,
       ((n - Int.tdiv n 1000 * 1000).natAbs / 10) % 256 % 10) := by
  simp only [Round.significant_digits, Round.castI64, hn]
  rw [show max Round.i64min (min Round.i64max n) = n by omega]

theorem sig_half : Round.significant_digits (F.fin (1/2)) 0 = (0, 5) := by
  rw [significant_digits_eval (1/2) 0 50 (by norm_num [Round.truncQ]) (by decide) (by decide)]
  decide

theorem sig_three_halves : Round.significant_digits (F.fin (3/2)) 0 = (1, 5) := by
  rw [significant_digits_eval (3/2) 0 150 (by norm_num [Round.truncQ]) (by decide) (by decide)]
  decide

theorem sig_126 : Round.significant_digits (F.fin (63/50)) 1 = (2, 6) := by
  rw [significant_digits_eval (63/50) 1 1260 (by norm_num [Round.truncQ]) (by decide) (by decide)]
  decide

theorem sig_125 : Round.significant_digits (F.fin (5/4)) 1 = (2, 5) := by
  rw [significant_digits_eval (5/4) 1 1250 (by norm_num [Round.truncQ]) (by decide) (by decide)]
  decide

theorem ceil_half : Round.ceil (F.fin (1/2)) 0 = F.fin 1 := by
  show F.fin _ = F.fin 1
  norm_num [Int.ceil_eq_iff]

theorem floor_half : Round.floor (F.fin (1/2)) 0 = F.fin 0 := by
  show F.fin _ = F.fin 0
  norm_num

theorem up_or_down_off (v : F) (s : ℕ) (u r : Bool)
    (h : (Round.significant_digits v s).2 ≠ 5) :
    Round.up_or_down v s u r = Round.to_nearest v s (Round.significant_digits v s).2 r := by
  simp only [Round.up_or_down]
  rw [show ((Round.significant_digits v s).2 == 5) = false by simpa using h]

theorem towards_zero_off (v : F) (s : ℕ) (t r : Bool)
    (h : (Round.significant_digits v s).2 ≠ 5) :
    Round.towards_zero v s t r = Round.to_nearest v s (Round.significant_digits v s).2 r := by
  simp only [Round.towards_zero]
  rw [show ((Round.significant_digits v s).2 == 5) = false by simpa using h]

theorem even_or_odd_off (v : F) (s : ℕ) (e r : Bool)
    (h : (Round.significant_digits v s).2 ≠ 5) :
    Round.even_or_odd v s e r = Round.to_nearest v s (Round.significant_digits v s).2 r := by
  simp only [Round.even_or_odd]
  rw [show ((Round.significant_digits v s).2 == 5) = false by simpa using h]

theorem even_or_odd_tie (q : ℚ) (s : ℕ) (e r : Bool)
    (h : (Round.significant_digits (F.fin q) s).2 = 5) :
    Round.even_or_odd (F.fin q) s e r =
      Round.round (F.fin q) s
        (Bool.xor (Bool.xor (decide (q < 0)) e)
          (decide ((Round.significant_digits (F.fin q) s).1 % 2 = 0))) := by
  simp only [Round.even_or_odd]
  rw [show ((Round.significant_digits (F.fin q) s).2 == 5) = true by simpa using h]
  rfl

/-- C7: off an exact tie (decisive digit different from five) every
half_* policy and `stochastic` pick the direction given by the sign of
the value xored with whether the decisive digit exceeds five, applying
the public `ceil` when that is true and the public `floor` otherwise,
so all seven agree. -/
theorem C7_off_tie_agree : ∀ (q : ℚ) (s : ℕ) (r : Bool),
    (Round.significant_digits (F.fin q) s).2 ≠ 5 →
    (Round.half_up (F.fin q) s r =
      (if Bool.xor (decide (q < 0)) (decide (5 < (Round.significant_digits (F.fin q) s).2))
       then Round.ceil (F.fin q) s else Round.floor (F.fin q) s)) ∧
    (Round.half_down (F.fin q) s r =
      (if Bool.xor (decide (q < 0)) (decide (5 < (Round.significant_digits (F.fin q) s).2))
       then Round.ceil (F.fin q) s else Round.floor (F.fin q) s)) ∧
    (Round.half_towards_zero (F.fin q) s r =
      (if Bool.xor (decide (q < 0)) (decide (5 < (Round.significant_digits (F.fin q) s).2))
       then Round.ceil (F.fin q) s else Round.floor (F.fin q) s)) ∧
    (Round.half_away_from_zero (F.fin q) s r =
      (if Bool.xor (decide (q < 0)) (decide (5 < (Round.significant_digits (F.fin q) s).2))
       then Round.ceil (F.fin q) s else Round.floor (F.fin q) s)) ∧
    (Round.half_to_even (F.fin q) s r =
      (if Bool.xor (decide (q < 0)) (decide (5 < (Round.significant_digits (F.fin q) s).2))
       then Round.ceil (F.fin q) s else Round.floor (F.fin q) s)) ∧
    (Round.half_to_odd (F.fin q) s r =
      (if Bool.xor (decide (q < 0)) (decide (5 < (Round.significant_digits (F.fin q) s).2))
       then Round.ceil (F.fin q) s else Round.floor (F.fin q) s)) ∧
    (Round.stochastic (F.fin q) s r =
      (if Bool.xor (decide (q < 0)) (decide (5 < (Round.significant_digits (F.fin q) s).2))
       then Round.ceil (F.fin q) s else Round.floor (F.fin q) s)) := by
  intro q s r h
  have key : Round.to_nearest (F.fin q) s (Round.significant_digits (F.fin q) s).2 r =
      (if Bool.xor (decide (q < 0)) (decide (5 < (Round.significant_digits (F.fin q) s).2))
       then Round.ceil (F.fin q) s else Round.floor (F.fin q) s) := by
    rw [to_nearest_of_ne _ _ _ _ h, round_eq_ite]
    rfl
  exact ⟨(up_or_down_off _ _ _ _ h).trans key, (up_or_down_off _ _ _ _ h).trans key,
    (towards_zero_off _ _ _ _ h).trans key, (towards_zero_off _ _ _ _ h).trans key,
    (even_or_odd_off _ _ _ _ h).trans key, (even_or_odd_off _ _ _ _ h).trans key,
    key⟩

/-- C7 witness: at value 1.26 and scale 1 the digit pair is (2, 6), the
direction is toward the ceiling, and all seven policies agree. -/
theorem C7_witness :
    Round.half_up (F.fin (63/50)) 1 true =
      (if Bool.xor (decide ((63/50 : ℚ) < 0))
          (decide (5 < (Round.significant_digits (F.fin (63/50)) 1).2))
       then Round.ceil (F.fin (63/50)) 1 else Round.floor (F.fin (63/50)) 1) :=
  (C7_off_tie_agree (63/50) 1 true (by rw [sig_126]; decide)).1

theorem floor_three_halves : Round.floor (F.fin (3/2)) 0 = F.fin 1 := by
  show F.fin _ = F.fin 1
  norm_num

theorem ceil_three_halves : Round.ceil (F.fin (3/2)) 0 = F.fin 2 := by
  show F.fin _ = F.fin 2
  have h : (⌈(3/2 : ℚ) * 10 ^ (0 : ℕ)⌉ : ℤ) = 2 := by
    rw [Int.ceil_eq_iff]
    constructor <;> norm_num
  rw [h]
  norm_num

theorem isNeg_nonneg (q : ℚ) (h : 0 ≤ q) : F.isNeg (F.fin q) = false := by
  simp only [F.isNeg, decide_eq_false_iff_not, not_lt]
  exact h

/-- C1 (amended): on an exact tie, `half_to_even` applies the public
`ceil` exactly when the sign of the value is xored with the ones digit
being odd, and the public `floor` otherwise. -/
theorem C1_half_to_even_tie : ∀ (q : ℚ) (s : ℕ) (r : Bool),
    (Round.significant_digits (F.fin q) s).2 = 5 →
    Round.half_to_even (F.fin q) s r =
      (if Bool.xor (decide (q < 0))
          (decide ((Round.significant_digits (F.fin q) s).1 % 2 = 1))
       then Round.ceil (F.fin q) s else Round.floor (F.fin q) s) := by
  intro q s r h
  rw [Round.half_to_even, even_or_odd_tie q s true r h, round_eq_ite]
  congr 1
  rcases Nat.mod_two_eq_zero_or_one (Round.significant_digits (F.fin q) s).1 with h2 | h2 <;>
    simp [h2]

/-- C1 witness: at value 0.5 and scale 0 the digit pair is (0, 5), the
ones digit is even and the value is nonnegative, so `half_to_even`
floors. -/
theorem C1_witness :
    Round.half_to_even (F.fin (1/2)) 0 true =
      (if Bool.xor (decide ((1/2 : ℚ) < 0))
          (decide ((Round.significant_digits (F.fin (1/2)) 0).1 % 2 = 1))
       then Round.ceil (F.fin (1/2)) 0 else Round.floor (F.fin (1/2)) 0) :=
  C1_half_to_even_tie (1/2) 0 true (by rw [sig_half])

/-- C1 counterexample: at value 0.5 and scale 0 the decisive digit is
five and the formula of the claim, `(value < 0) XOR (onesDigit is
even)`, is true, demanding the ceiling 1; the code floors to 0 for
either random draw. -/
theorem C1_counterexample :
    Round.significant_digits (F.fin (1/2)) 0 = (0, 5) ∧
    Bool.xor (decide ((1/2 : ℚ) < 0)) (decide ((0 : ℕ) % 2 = 0)) = true ∧
    Round.half_to_even (F.fin (1/2)) 0 true = F.fin 0 ∧
    Round.half_to_even (F.fin (1/2)) 0 false = F.fin 0 ∧
    Round.ceil (F.fin (1/2)) 0 = F.fin 1 ∧
    F.fin (0 : ℚ) ≠ F.fin (1 : ℚ) := by
  have hval : ∀ r, Round.half_to_even (F.fin (1/2)) 0 r = F.fin 0 := by
    intro r
    rw [Round.half_to_even, even_or_odd_tie (1/2) 0 true r (by rw [sig_half]), sig_half]
    rw [show Bool.xor (Bool.xor (decide ((1/2 : ℚ) < 0)) true) (decide (((0, 5) : ℕ × ℕ).1 % 2 = 0)) = false by norm_num]
    exact floor_half
  refine ⟨sig_half, by norm_num, hval true, hval false, ceil_half, by simp⟩

/-- C2 (amended): on an exact tie, `half_to_odd` applies the public
`ceil` exactly when the sign of the value is xored with the ones digit
being even, and the public `floor` otherwise. -/
theorem C2_half_to_odd_tie : ∀ (q : ℚ) (s : ℕ) (r : Bool),
    (Round.significant_digits (F.fin q) s).2 = 5 →
    Round.half_to_odd (F.fin q) s r =
      (if Bool.xor (decide (q < 0))
          (decide ((Round.significant_digits (F.fin q) s).1 % 2 = 0))
       then Round.ceil (F.fin q) s else Round.floor (F.fin q) s) := by
  intro q s r h
  rw [Round.half_to_odd, even_or_odd_tie q s false r h, round_eq_ite]
  congr 1
  rcases Nat.mod_two_eq_zero_or_one (Round.significant_digits (F.fin q) s).1 with h2 | h2 <;>
    simp [h2]

/-- C2 witness: at value 1.5 and scale 0 the digit pair is (1, 5), the
ones digit is odd and the value is nonnegative, so `half_to_odd`
floors. -/
theorem C2_witness :
    Round.half_to_odd (F.fin (3/2)) 0 true =
      (if Bool.xor (decide ((3/2 : ℚ) < 0))
          (decide ((Round.significant_digits (F.fin (3/2)) 0).1 % 2 = 0))
       then Round.ceil (F.fin (3/2)) 0 else Round.floor (F.fin (3/2)) 0) :=
  C2_half_to_odd_tie (3/2) 0 true (by rw [sig_three_halves])

/-- C2 counterexample: at value 1.5 and scale 0 the decisive digit is
five and the formula of the claim, `(value < 0) XOR (onesDigit is
odd)`, is true, demanding the ceiling 2; the code floors to 1 for
either random draw. -/
theorem C2_counterexample :
    Round.significant_digits (F.fin (3/2)) 0 = (1, 5) ∧
    Bool.xor (decide ((3/2 : ℚ) < 0)) (decide ((1 : ℕ) % 2 = 1)) = true ∧
    Round.half_to_odd (F.fin (3/2)) 0 true = F.fin 1 ∧
    Round.half_to_odd (F.fin (3/2)) 0 false = F.fin 1 ∧
    Round.ceil (F.fin (3/2)) 0 = F.fin 2 ∧
    F.fin (1 : ℚ) ≠ F.fin (2 : ℚ) := by
  have hval : ∀ r, Round.half_to_odd (F.fin (3/2)) 0 r = F.fin 1 := by
    intro r
    rw [Round.half_to_odd, even_or_odd_tie (3/2) 0 false r (by rw [sig_three_halves]), sig_three_halves]
    rw [show Bool.xor (Bool.xor (decide ((3/2 : ℚ) < 0)) false) (decide (((1, 5) : ℕ × ℕ).1 % 2 = 0)) = false by norm_num]
    exact floor_three_halves
  refine ⟨sig_three_halves, by norm_num, hval true, hval false, ceil_three_halves, by simp⟩

theorem tdiv_rem_natAbs_lt (x : ℤ) : (x - Int.tdiv x 1000 * 1000).natAbs < 1000 := by
  have h : x - Int.tdiv x 1000 * 1000 = Int.tmod x 1000 := by
    rw [Int.tmod_def]
    ring
  rw [h]
  have e : (1000 : ℤ) = Int.ofNat 1000 := rfl
  rw [e]
  cases x with
  | ofNat n =>
    simp only [Int.tmod, Int.ofNat_eq_natCast, Int.natAbs_ofNat]
    omega
  | negSucc n =>
    simp only [Int.tmod, Int.ofNat_eq_natCast, Int.natAbs_neg, Int.natAbs_ofNat]
    omega

/-- C6 (amended): for every finite value whose magnified truncation
fits the i64 range, `significant_digits` computes exactly the digit
pair of the spec formula, and it returns `(0, 0)` on NaN and on the two
infinities; outside the i64 range the magnified integer saturates at
the range bounds, which the formula of the claim does not model. -/
theorem C6_significant_digits : (∀ (q : ℚ) (s : ℕ),
      Round.i64min ≤ Round.truncQ (q * 10 ^ (s + 2)) →
      Round.truncQ (q * 10 ^ (s + 2)) ≤ Round.i64max →
      Round.significant_digits (F.fin q) s = Round.significant_digits_spec (F.fin q) s) ∧
    (∀ s : ℕ, Round.significant_digits F.nan s = (0, 0) ∧
      Round.significant_digits F.inf s = (0, 0) ∧
      Round.significant_digits F.ninf s = (0, 0)) := by
  constructor
  · intro q s h₁ h₂
    simp only [Round.significant_digits, Round.significant_digits_spec, Round.castI64]
    rw [show max Round.i64min (min Round.i64max (Round.truncQ (q * 10 ^ (s + 2)))) =
        Round.truncQ (q * 10 ^ (s + 2)) by omega]
    have hlt := tdiv_rem_natAbs_lt (Round.truncQ (q * 10 ^ (s + 2)))
    rw [Nat.mod_eq_of_lt (by omega)]
  · intro s
    exact ⟨rfl, rfl, rfl⟩

/-- C6 witness: at value 0.5 and scale 0 the magnified truncation is 50,
inside the i64 range, and the embedding agrees with the spec formula. -/
theorem C6_witness :
    Round.significant_digits (F.fin (1/2)) 0 =
      Round.significant_digits_spec (F.fin (1/2)) 0 :=
  C6_significant_digits.1 (1/2) 0 (by norm_num [Round.truncQ]; decide)
    (by norm_num [Round.truncQ]; decide)

theorem truncQ_1e20 : Round.truncQ ((10 ^ 20 : ℚ) * 10 ^ (0 + 2)) = 10 ^ 22 := by
  norm_num [Round.truncQ]

/-- C6 counterexample: at the finite value 1e20 and scale 0 the
magnified integer 1e22 exceeds the i64 range; the code saturates the
cast at the largest i64 and extracts the pair (8, 0) from its trailing
digits, while the formula of the claim yields (0, 0). -/
theorem C6_counterexample :
    Round.significant_digits (F.fin (10 ^ 20)) 0 = (8, 0) ∧
    Round.significant_digits_spec (F.fin (10 ^ 20)) 0 = (0, 0) ∧
    ((8, 0) : ℕ × ℕ) ≠ ((0, 0) : ℕ × ℕ) := by
  refine ⟨?_, ?_, by decide⟩
  · simp only [Round.significant_digits, Round.castI64, truncQ_1e20]
    decide
  · simp only [Round.significant_digits_spec, truncQ_1e20]
    decide

theorem pow10i64_of_le {s : ℕ} (h : s ≤ 18) :
    Round.pow10i64 s = some ((10 : ℤ) ^ s) := by
  unfold Round.pow10i64
  rw [if_pos]
  calc (10 : ℤ) ^ s ≤ 10 ^ 18 := pow_le_pow_right₀ (by norm_num) h
    _ ≤ Round.i64max := by decide

theorem ceilP_of_le (v : F) {s : ℕ} (h : s ≤ 18) :
    Round.ceilP v s = some (Round.ceil v s) := by
  rw [Round.ceilP, pow10i64_of_le h, Option.map_some']
  cases v <;> simp [Round.ceil]

theorem floorP_of_le (v : F) {s : ℕ} (h : s ≤ 18) :
    Round.floorP v s = some (Round.floor v s) := by
  rw [Round.floorP, pow10i64_of_le h, Option.map_some']
  cases v <;> simp [Round.floor]

theorem roundP_of_le (v : F) {s : ℕ} (u : Bool) (h : s ≤ 18) :
    Round.roundP v s u = some (Round.round v s u) := by
  cases u
  · exact floorP_of_le v h
  · exact ceilP_of_le v h

theorem to_nearestP_of_le (v : F) {s : ℕ} (d : ℕ) (r : Bool) (h : s ≤ 18) :
    Round.to_nearestP v s d r = some (Round.to_nearest v s d r) :=
  roundP_of_le v _ h

theorem up_or_downP_of_le (v : F) {s : ℕ} (u r : Bool) (h : s ≤ 18) :
    Round.up_or_downP v s u r = some (Round.up_or_down v s u r) := by
  simp only [Round.up_or_downP, Round.up_or_down]
  cases hb : (Round.significant_digits v s).2 == 5
  · exact to_nearestP_of_le v _ r h
  · exact roundP_of_le v u h

theorem towards_zeroP_of_le (v : F) {s : ℕ} (t r : Bool) (h : s ≤ 18) :
    Round.towards_zeroP v s t r = some (Round.towards_zero v s t r) := by
  simp only [Round.towards_zeroP, Round.towards_zero]
  cases hb : (Round.significant_digits v s).2 == 5
  · exact to_nearestP_of_le v _ r h
  · exact roundP_of_le v _ h

theorem even_or_oddP_of_le (v : F) {s : ℕ} (e r : Bool) (h : s ≤ 18) :
    Round.even_or_oddP v s e r = some (Round.even_or_odd v s e r) := by
  simp only [Round.even_or_oddP, Round.even_or_odd]
  cases hb : (Round.significant_digits v s).2 == 5
  · exact to_nearestP_of_le v _ r h
  · exact roundP_of_le v _ h

/-- C4 (amended): for every value, every random draw, and every scale
at most 18 (so that `10^scale` fits an i64) each of the nine public
rounding functions returns normally, with the same result as the
panic-free embedding. -/
theorem C4_no_panic_small_scale : ∀ (v : F) (s : ℕ) (r : Bool), s ≤ 18 →
    Round.ceilP v s = some (Round.ceil v s) ∧
    Round.floorP v s = some (Round.floor v s) ∧
    Round.half_upP v s r = some (Round.half_up v s r) ∧
    Round.half_downP v s r = some (Round.half_down v s r) ∧
    Round.half_towards_zeroP v s r = some (Round.half_towards_zero v s r) ∧
    Round.half_away_from_zeroP v s r = some (Round.half_away_from_zero v s r) ∧
    Round.half_to_evenP v s r = some (Round.half_to_even v s r) ∧
    Round.half_to_oddP v s r = some (Round.half_to_odd v s r) ∧
    Round.stochasticP v s r = some (Round.stochastic v s r) := by
  intro v s r h
  exact ⟨ceilP_of_le v h, floorP_of_le v h, up_or_downP_of_le v true r h,
    up_or_downP_of_le v false r h, towards_zeroP_of_le v true r h,
    towards_zeroP_of_le v false r h, even_or_oddP_of_le v true r h,
    even_or_oddP_of_le v false r h, to_nearestP_of_le v _ r h⟩

/-- C4 witness: at the finite value 0.5 and scale 3 every public
rounding function returns normally. -/
theorem C4_witness :
    Round.ceilP (F.fin (1/2)) 3 = some (Round.ceil (F.fin (1/2)) 3) ∧
    Round.floorP (F.fin (1/2)) 3 = some (Round.floor (F.fin (1/2)) 3) ∧
    Round.half_upP (F.fin (1/2)) 3 true = some (Round.half_up (F.fin (1/2)) 3 true) ∧
    Round.half_downP (F.fin (1/2)) 3 true = some (Round.half_down (F.fin (1/2)) 3 true) ∧
    Round.half_towards_zeroP (F.fin (1/2)) 3 true = some (Round.half_towards_zero (F.fin (1/2)) 3 true) ∧
    Round.half_away_from_zeroP (F.fin (1/2)) 3 true = some (Round.half_away_from_zero (F.fin (1/2)) 3 true) ∧
    Round.half_to_evenP (F.fin (1/2)) 3 true = some (Round.half_to_even (F.fin (1/2)) 3 true) ∧
    Round.half_to_oddP (F.fin (1/2)) 3 true = some (Round.half_to_odd (F.fin (1/2)) 3 true) ∧
    Round.stochasticP (F.fin (1/2)) 3 true = some (Round.stochastic (F.fin (1/2)) 3 true) :=
  C4_no_panic_small_scale (F.fin (1/2)) 3 true (by norm_num)

theorem pow10i64_19 : Round.pow10i64 19 = none := by
  unfold Round.pow10i64
  rw [if_neg]
  decide

theorem roundP_19 (v : F) (u : Bool) : Round.roundP v 19 u = none := by
  cases u
  · rw [Round.roundP, Round.floorP, pow10i64_19]
    rfl
  · rw [Round.roundP, Round.ceilP, pow10i64_19]
    rfl

theorem to_nearestP_19 (v : F) (d : ℕ) (r : Bool) :
    Round.to_nearestP v 19 d r = none :=
  roundP_19 v _

/-- C4 counterexample: at the finite value 0.5 and scale 19 the i64
power of ten overflows, so under checked (debug) arithmetic every
public rounding function panics instead of returning normally. -/
theorem C4_counterexample :
    Round.pow10i64 19 = none ∧
    Round.ceilP (F.fin (1/2)) 19 = none ∧
    Round.floorP (F.fin (1/2)) 19 = none ∧
    Round.half_upP (F.fin (1/2)) 19 true = none ∧
    Round.half_downP (F.fin (1/2)) 19 true = none ∧
    Round.half_towards_zeroP (F.fin (1/2)) 19 true = none ∧
    Round.half_away_from_zeroP (F.fin (1/2)) 19 true = none ∧
    Round.half_to_evenP (F.fin (1/2)) 19 true = none ∧
    Round.half_to_oddP (F.fin (1/2)) 19 true = none ∧
    Round.stochasticP (F.fin (1/2)) 19 true = none := by
  have hud : ∀ (u r : Bool), Round.up_or_downP (F.fin (1/2)) 19 u r = none := by
    intro u r
    simp only [Round.up_or_downP]
    cases hb : (Round.significant_digits (F.fin (1/2)) 19).2 == 5
    · exact to_nearestP_19 _ _ r
    · exact roundP_19 _ u
  have htz : ∀ (t r : Bool), Round.towards_zeroP (F.fin (1/2)) 19 t r = none := by
    intro t r
    simp only [Round.towards_zeroP]
    cases hb : (Round.significant_digits (F.fin (1/2)) 19).2 == 5
    · exact to_nearestP_19 _ _ r
    · exact roundP_19 _ _
  have heo : ∀ (e r : Bool), Round.even_or_oddP (F.fin (1/2)) 19 e r = none := by
    intro e r
    simp only [Round.even_or_oddP]
    cases hb : (Round.significant_digits (F.fin (1/2)) 19).2 == 5
    · exact to_nearestP_19 _ _ r
    · exact roundP_19 _ _
  refine ⟨pow10i64_19, ?_, ?_, hud true true, hud false true, htz true true,
    htz false true, heo true true, heo false true, to_nearestP_19 _ _ true⟩
  · rw [Round.ceilP, pow10i64_19]
    rfl
  · rw [Round.floorP, pow10i64_19]
    rfl

/-- C3 (amended): on the empty slice, `arithmetic` and `harmonic`
divide zero by zero and return NaN; `geometric` raises the empty
product 1.0 to the power `1/0 = +Infinity` and returns 1.0 by the
IEEE-754 special case `pow(1, y) = 1`; none of the three raises an
explicit empty-input error. -/
theorem C3_empty_means : ∀ (powf : F → F → F),
    powf (F.fin 1) F.inf = F.fin 1 →
    Mean.arithmetic [] = F.nan ∧
    Mean.geometric powf [] = F.fin 1 ∧
    Mean.harmonic [] = F.nan := by
  intro powf hpow
  refine ⟨?_, ?_, ?_⟩
  · show F.div (([] : List F).foldl F.add (F.fin 0)) (F.fin (([] : List F).length : ℚ)) = F.nan
    norm_num [F.div]
  · show Mean.geometric powf [] = F.fin 1
    simp only [Mean.geometric, List.foldl_nil]
    rw [show (F.fin (1 : ℚ)).isNeg = false from isNeg_nonneg 1 (by norm_num)]
    rw [show F.div (F.fin 1) (F.fin ((([] : List F).length : ℚ))) = F.inf by norm_num [F.div]]
    exact hpow
  · show F.div (F.fin (([] : List F).length : ℚ)) (([] : List F).foldl (fun a b => F.add a (F.div (F.fin 1) b)) (F.fin 0)) = F.nan
    norm_num [F.div]

/-- C3 witness: the concrete `powf` realizing the IEEE-754 special case
`pow(1, y) = 1` satisfies the hypothesis, and the three means behave as
stated on the empty slice. -/
theorem C3_witness :
    Mean.arithmetic [] = F.nan ∧
    Mean.geometric Mean.powfOne [] = F.fin 1 ∧
    Mean.harmonic [] = F.nan :=
  C3_empty_means Mean.powfOne rfl

/-- C3 counterexample: on the empty slice `geometric` returns the
finite value 1.0, which is neither an infinity nor NaN, against the
words of the claim that each of the three means yields Infinity or NaN
there. -/
theorem C3_counterexample :
    Mean.geometric Mean.powfOne [] = F.fin 1 ∧
    F.fin (1 : ℚ) ≠ F.nan ∧ F.fin (1 : ℚ) ≠ F.inf ∧ F.fin (1 : ℚ) ≠ F.ninf := by
  have h : Mean.geometric Mean.powfOne [] = F.fin 1 := by
    simp only [Mean.geometric, List.foldl_nil]
    rw [show (F.fin (1 : ℚ)).isNeg = false from isNeg_nonneg 1 (by norm_num)]
    rfl
  exact ⟨h, by simp, by simp, by simp⟩

/-- C8 witness: at value 1.25 and scale 1 the digit pair is (2, 5), and
`half_up` yields the ceiling while `half_down` yields the floor. -/
theorem C8_witness :
    Round.half_up (F.fin (5/4)) 1 true = Round.ceil (F.fin (5/4)) 1 ∧
    Round.half_down (F.fin (5/4)) 1 true = Round.floor (F.fin (5/4)) 1 :=
  C8_half_up_down_tie (5/4) 1 true (by rw [sig_125])

theorem up_or_downP_19 (v : F) (u r : Bool) : Round.up_or_downP v 19 u r = none := by
  simp only [Round.up_or_downP]
  cases hb : (Round.significant_digits v 19).2 == 5
  · exact to_nearestP_19 _ _ r
  · exact roundP_19 _ u

theorem towards_zeroP_19 (v : F) (t r : Bool) : Round.towards_zeroP v 19 t r = none := by
  simp only [Round.towards_zeroP]
  cases hb : (Round.significant_digits v 19).2 == 5
  · exact to_nearestP_19 _ _ r
  · exact roundP_19 _ _

theorem even_or_oddP_19 (v : F) (e r : Bool) : Round.even_or_oddP v 19 e r = none := by
  simp only [Round.even_or_oddP]
  cases hb : (Round.significant_digits v 19).2 == 5
  · exact to_nearestP_19 _ _ r
  · exact roundP_19 _ _

theorem ceilP_19 (v : F) : Round.ceilP v 19 = none := by
  rw [Round.ceilP, pow10i64_19]
  rfl

theorem floorP_19 (v : F) : Round.floorP v 19 = none := by
  rw [Round.floorP, pow10i64_19]
  rfl

/-- C5 (amended): for every scale at most 18 (so that `10^scale` fits
an i64) every public rounding function returns NaN on NaN and returns
each infinity unchanged, for every random draw; for larger scales the
multiplier `10i64.pow(scale)`, computed before the non-finite
short-circuit, overflows, so the unchanged-return guarantee does not
hold for every scale. -/
theorem C5_nonfinite_small_scale : ∀ (s : ℕ) (r : Bool), s ≤ 18 →
    (Round.ceilP F.nan s = some F.nan ∧ Round.ceilP F.inf s = some F.inf ∧
      Round.ceilP F.ninf s = some F.ninf) ∧
    (Round.floorP F.nan s = some F.nan ∧ Round.floorP F.inf s = some F.inf ∧
      Round.floorP F.ninf s = some F.ninf) ∧
    (Round.half_upP F.nan s r = some F.nan ∧ Round.half_upP F.inf s r = some F.inf ∧
      Round.half_upP F.ninf s r = some F.ninf) ∧
    (Round.half_downP F.nan s r = some F.nan ∧ Round.half_downP F.inf s r = some F.inf ∧
      Round.half_downP F.ninf s r = some F.ninf) ∧
    (Round.half_towards_zeroP F.nan s r = some F.nan ∧ Round.half_towards_zeroP F.inf s r = some F.inf ∧
      Round.half_towards_zeroP F.ninf s r = some F.ninf) ∧
    (Round.half_away_from_zeroP F.nan s r = some F.nan ∧ Round.half_away_from_zeroP F.inf s r = some F.inf ∧
      Round.half_away_from_zeroP F.ninf s r = some F.ninf) ∧
    (Round.half_to_evenP F.nan s r = some F.nan ∧ Round.half_to_evenP F.inf s r = some F.inf ∧
      Round.half_to_evenP F.ninf s r = some F.ninf) ∧
    (Round.half_to_oddP F.nan s r = some F.nan ∧ Round.half_to_oddP F.inf s r = some F.inf ∧
      Round.half_to_oddP F.ninf s r = some F.ninf) ∧
    (Round.stochasticP F.nan s r = some F.nan ∧ Round.stochasticP F.inf s r = some F.inf ∧
      Round.stochasticP F.ninf s r = some F.ninf) := by
  intro s r h
  exact ⟨⟨(ceilP_of_le F.nan h).trans rfl, (ceilP_of_le F.inf h).trans rfl,
      (ceilP_of_le F.ninf h).trans rfl⟩,
    ⟨(floorP_of_le F.nan h).trans rfl, (floorP_of_le F.inf h).trans rfl,
      (floorP_of_le F.ninf h).trans rfl⟩,
    ⟨(up_or_downP_of_le F.nan true r h).trans rfl, (up_or_downP_of_le F.inf true r h).trans rfl,
      (up_or_downP_of_le F.ninf true r h).trans rfl⟩,
    ⟨(up_or_downP_of_le F.nan false r h).trans rfl, (up_or_downP_of_le F.inf false r h).trans rfl,
      (up_or_downP_of_le F.ninf false r h).trans rfl⟩,
    ⟨(towards_zeroP_of_le F.nan true r h).trans rfl, (towards_zeroP_of_le F.inf true r h).trans rfl,
      (towards_zeroP_of_le F.ninf true r h).trans rfl⟩,
    ⟨(towards_zeroP_of_le F.nan false r h).trans rfl, (towards_zeroP_of_le F.inf false r h).trans rfl,
      (towards_zeroP_of_le F.ninf false r h).trans rfl⟩,
    ⟨(even_or_oddP_of_le F.nan true r h).trans rfl, (even_or_oddP_of_le F.inf true r h).trans rfl,
      (even_or_oddP_of_le F.ninf true r h).trans rfl⟩,
    ⟨(even_or_oddP_of_le F.nan false r h).trans rfl, (even_or_oddP_of_le F.inf false r h).trans rfl,
      (even_or_oddP_of_le F.ninf false r h).trans rfl⟩,
    ⟨(to_nearestP_of_le F.nan (Round.significant_digits F.nan s).2 r h).trans rfl,
      (to_nearestP_of_le F.inf (Round.significant_digits F.inf s).2 r h).trans rfl,
      (to_nearestP_of_le F.ninf (Round.significant_digits F.ninf s).2 r h).trans rfl⟩⟩

/-- C5 witness: at scale 1 every public rounding function returns NaN
on NaN and each infinity unchanged. -/
theorem C5_witness :
    (Round.ceilP F.nan 1 = some F.nan ∧ Round.ceilP F.inf 1 = some F.inf ∧
      Round.ceilP F.ninf 1 = some F.ninf) ∧
    (Round.floorP F.nan 1 = some F.nan ∧ Round.floorP F.inf 1 = some F.inf ∧
      Round.floorP F.ninf 1 = some F.ninf) ∧
    (Round.half_upP F.nan 1 true = some F.nan ∧ Round.half_upP F.inf 1 true = some F.inf ∧
      Round.half_upP F.ninf 1 true = some F.ninf) ∧
    (Round.half_downP F.nan 1 true = some F.nan ∧ Round.half_downP F.inf 1 true = some F.inf ∧
      Round.half_downP F.ninf 1 true = some F.ninf) ∧
    (Round.half_towards_zeroP F.nan 1 true = some F.nan ∧ Round.half_towards_zeroP F.inf 1 true = some F.inf ∧
      Round.half_towards_zeroP F.ninf 1 true = some F.ninf) ∧
    (Round.half_away_from_zeroP F.nan 1 true = some F.nan ∧ Round.half_away_from_zeroP F.inf 1 true = some F.inf ∧
      Round.half_away_from_zeroP F.ninf 1 true = some F.ninf) ∧
    (Round.half_to_evenP F.nan 1 true = some F.nan ∧ Round.half_to_evenP F.inf 1 true = some F.inf ∧
      Round.half_to_evenP F.ninf 1 true = some F.ninf) ∧
    (Round.half_to_oddP F.nan 1 true = some F.nan ∧ Round.half_to_oddP F.inf 1 true = some F.inf ∧
      Round.half_to_oddP F.ninf 1 true = some F.ninf) ∧
    (Round.stochasticP F.nan 1 true = some F.nan ∧ Round.stochasticP F.inf 1 true = some F.inf ∧
      Round.stochasticP F.ninf 1 true = some F.ninf) :=
  C5_nonfinite_small_scale 1 true (by norm_num)

/-- C5 counterexample: at scale 19 the i64 power of ten, computed
before the non-finite short-circuit, overflows, so under checked
(debug) arithmetic every public rounding function panics on NaN input
instead of returning it unchanged. -/
theorem C5_counterexample :
    Round.ceilP F.nan 19 = none ∧
    Round.floorP F.nan 19 = none ∧
    Round.half_upP F.nan 19 true = none ∧
    Round.half_downP F.nan 19 true = none ∧
    Round.half_towards_zeroP F.nan 19 true = none ∧
    Round.half_away_from_zeroP F.nan 19 true = none ∧
    Round.half_to_evenP F.nan 19 true = none ∧
    Round.half_to_oddP F.nan 19 true = none ∧
    Round.stochasticP F.nan 19 true = none ∧
    (none : Option F) ≠ some F.nan :=
  ⟨ceilP_19 F.nan, floorP_19 F.nan, up_or_downP_19 F.nan true true,
    up_or_downP_19 F.nan false true, towards_zeroP_19 F.nan true true,
    towards_zeroP_19 F.nan false true, even_or_oddP_19 F.nan true true,
    even_or_oddP_19 F.nan false true,
    to_nearestP_19 F.nan (Round.significant_digits F.nan 19).2 true, by simp⟩

/-- C9 (amended): for every finite value and every scale at most 18
(so that `10^scale` fits an i64) the public `floor` returns normally
with a value below the input and the public `ceil` returns normally
with a value above it; for larger scales the multiplier overflows, so
the bound does not hold for every scale. -/
theorem C9_floor_le_ceil_small_scale : ∀ (q : ℚ) (s : ℕ), s ≤ 18 →
    ∃ a b : ℚ,
      Round.floorP (F.fin q) s = some (F.fin a) ∧
      Round.ceilP (F.fin q) s = some (F.fin b) ∧
      a ≤ q ∧ q ≤ b := by
  intro q s h
  refine ⟨((⌊q * 10 ^ s⌋ : ℤ) : ℚ) / 10 ^ s, ((⌈q * 10 ^ s⌉ : ℤ) : ℚ) / 10 ^ s,
    (floorP_of_le (F.fin q) h).trans rfl, (ceilP_of_le (F.fin q) h).trans rfl, ?_, ?_⟩
  · rw [div_le_iff₀ (by positivity)]
    exact Int.floor_le _
  · rw [le_div_iff₀ (by positivity)]
    exact Int.le_ceil _

/-- C9 witness: at value 0.5 and scale 0 the public `floor` and `ceil`
return values bracketing the input. -/
theorem C9_witness :
    ∃ a b : ℚ,
      Round.floorP (F.fin (1/2)) 0 = some (F.fin a) ∧
      Round.ceilP (F.fin (1/2)) 0 = some (F.fin b) ∧
      a ≤ 1/2 ∧ 1/2 ≤ b :=
  C9_floor_le_ceil_small_scale (1/2) 0 (by norm_num)

/-- C9 counterexample: at the finite value 0.5 and scale 19 the i64
power of ten overflows, so under checked (debug) arithmetic `floor` and
`ceil` panic and return no bracketing values at all, against the words
of the claim that the bound holds for all finite values and scales. -/
theorem C9_counterexample :
    Round.floorP (F.fin (1/2)) 19 = none ∧
    Round.ceilP (F.fin (1/2)) 19 = none ∧
    ¬ ∃ a b : ℚ,
        Round.floorP (F.fin (1/2)) 19 = some (F.fin a) ∧
        Round.ceilP (F.fin (1/2)) 19 = some (F.fin b) ∧
        a ≤ 1/2 ∧ 1/2 ≤ b := by
  refine ⟨floorP_19 _, ceilP_19 _, ?_⟩
  rintro ⟨a, b, ha, hb, hle, hle2⟩
  rw [floorP_19] at ha
  exact Option.noConfusion ha
